import Mathlib

/-!
# Verification of the deeppoint-ai analysis pipeline

Shallow embedding of the analysis pipeline of the repository:
the priority scorer (`lib/services/priority-scoring.ts`), the clustering
gateway with its keyword-bucket fallback and representative-text selector
(`lib/services/clustering-service.ts`), the GLM deep-analysis client's
response validation (`lib/services/glm-service.ts`), and the job
orchestrator (`lib/services/job-manager.ts`).

JavaScript numbers are modelled by `ℚ` (all arithmetic in the scoring code
is exact decimal arithmetic; `Math.round`/`Math.min`/`Math.max` are
modelled explicitly).  JS strings are modelled by `String`, with
`String.prototype.includes` modelled by an explicit substring scan over the
character list.  `Array.prototype.sort`, which is stable per the ECMAScript
specification, is modelled by a stable insertion sort.
-/

/-- JS `Math.round` for the non-negative values occurring here:
round half away from zero, i.e. `⌊x + 1/2⌋`. -/
def jsRound (x : ℚ) : ℤ := ⌊x + 1/2⌋

/-- JS `Math.round(x * 10) / 10` — rounding to one decimal place, as used
throughout `priority-scoring.ts`. -/
def round1 (x : ℚ) : ℚ := (jsRound (x * 10) : ℚ) / 10

/-- Whether the character list `p` occurs at the start of `l`. -/
def startsWithSub (p l : List Char) : Bool :=
  match p, l with
  | [], _ => true
  | _ :: _, [] => false
  | a :: p', b :: l' => a = b && startsWithSub p' l'

/-- Whether the character list `p` occurs somewhere inside `l`. -/
def hasSub (l p : List Char) : Bool :=
  match l with
  | [] => p.isEmpty
  | _ :: rest => startsWithSub p l || hasSub rest p

/-- JS `s.includes(kw)`: substring containment. -/
def containsKw (s kw : String) : Bool := hasSub s.data kw.data

section StableSort

variable {α : Type _}

/-- Insert `x` into a list already sorted by descending `key`: `x` goes in
front of the first element whose key is not larger than `key x`.  This is
the insertion step of a stable descending sort, matching the semantics of
JS `arr.sort((a, b) => key(b) - key(a))` (stable per ECMAScript 2019). -/
def insertDesc (key : α → ℚ) (x : α) : List α → List α
  | [] => [x]
  | y :: ys => if key y ≤ key x then x :: y :: ys else y :: insertDesc key x ys

/-- Stable sort by descending `key` (insertion sort). -/
def sortDesc (key : α → ℚ) : List α → List α
  | [] => []
  | x :: xs => insertDesc key x (sortDesc key xs)

theorem insertDesc_perm (key : α → ℚ) (x : α) (l : List α) :
    List.Perm (insertDesc key x l) (x :: l) := by
  induction l with
  | nil => simp [insertDesc]
  | cons y ys ih =>
      by_cases h : key y ≤ key x
      · simp [insertDesc, h]
      · rw [insertDesc, if_neg h]
        exact List.Perm.trans (List.Perm.cons y ih) (List.Perm.swap x y ys)

theorem sortDesc_perm (key : α → ℚ) (l : List α) :
    List.Perm (sortDesc key l) l := by
  induction l with
  | nil => simp [sortDesc]
  | cons x xs ih =>
      exact List.Perm.trans (insertDesc_perm key x _) (List.Perm.cons x ih)

theorem insertDesc_pairwise (key : α → ℚ) (x : α) (l : List α)
    (h : l.Pairwise (fun a b => key b ≤ key a)) :
    (insertDesc key x l).Pairwise (fun a b => key b ≤ key a) := by
  induction l with
  | nil => simp [insertDesc]
  | cons y ys ih =>
      by_cases hxy : key y ≤ key x
      · rw [insertDesc, if_pos hxy]
        refine List.Pairwise.cons ?_ h
        intro b hb
        rcases List.mem_cons.mp hb with hb | hb
        · exact hb ▸ hxy
        · exact le_trans ((List.pairwise_cons.mp h).1 b hb) hxy
      · rw [insertDesc, if_neg hxy]
        have h' := List.pairwise_cons.mp h
        refine List.Pairwise.cons ?_ (ih h'.2)
        intro b hb
        have hb' := (insertDesc_perm key x ys).mem_iff.mp hb
        rcases List.mem_cons.mp hb' with hb' | hb'
        · exact hb' ▸ le_of_lt (lt_of_not_le hxy)
        · exact h'.1 b hb'

theorem sortDesc_pairwise (key : α → ℚ) (l : List α) :
    (sortDesc key l).Pairwise (fun a b => key b ≤ key a) := by
  induction l with
  | nil => simp [sortDesc]
  | cons x xs ih => exact insertDesc_pairwise key x _ ih

/-- Stability of the insertion step: for any fixed key value `k`, inserting
an element whose key is `k` prepends it to the `k`-key elements, and
inserting any other element leaves the `k`-key subsequence unchanged. -/
theorem insertDesc_filter (key : α → ℚ) (x : α) (l : List α) (k : ℚ) :
    (insertDesc key x l).filter (fun a => key a = k) =
      if key x = k then x :: l.filter (fun a => key a = k)
      else l.filter (fun a => key a = k) := by
  induction l with
  | nil =>
      by_cases hx : key x = k <;> simp [insertDesc, List.filter, hx]
  | cons y ys ih =>
      rw [insertDesc]
      by_cases hxy : key y ≤ key x
      · rw [if_pos hxy]
        by_cases hx : key x = k <;> by_cases hy : key y = k <;>
          simp [List.filter_cons, hx, hy]
      · rw [if_neg hxy, List.filter_cons, ih]
        have hlt : key x < key y := lt_of_not_le hxy
        by_cases hx : key x = k
        · have hy : ¬ key y = k := by
            intro hy
            rw [hx, ← hy] at hlt
            exact absurd hlt (lt_irrefl (key y))
          simp [List.filter_cons, hx, hy]
        · by_cases hy : key y = k <;> simp [List.filter_cons, hx, hy]

/-- Stability of the sort: the subsequence of elements having any fixed key
value is preserved (JS stable-sort semantics). -/
theorem sortDesc_stable (key : α → ℚ) (l : List α) (k : ℚ) :
    (sortDesc key l).filter (fun a => key a = k) =
      l.filter (fun a => key a = k) := by
  induction l with
  | nil => simp [sortDesc]
  | cons x xs ih =>
      rw [sortDesc, insertDesc_filter key x _ k]
      by_cases hx : key x = k <;> simp [List.filter_cons, hx, ih]

end StableSort

/-!
## Priority scorer — `lib/services/priority-scoring.ts`
-/

namespace PriorityScorer

/-- The `PriorityScore.level` union type. -/
inductive Level
  | High
  | Medium
  | Low
deriving DecidableEq, Repr

/-- One entry of `existing_solutions` (interface in `priority-scoring.ts`). -/
structure Solution where
  name : String
  limitation : String
deriving DecidableEq, Repr

/-- The `PriorityScore` interface. -/
structure PriorityScore where
  demand_intensity : ℚ
  market_size : ℚ
  competition : ℚ
  overall : ℚ
  level : Level
deriving DecidableEq, Repr

/-- Source `PriorityScorer.calculateDemandIntensity`. -/
def calculateDemandIntensity (clusterSize totalSize emotionalIntensity : ℚ) : ℚ :=
  let sizeRatio := clusterSize / totalSize
  let sizeScore := min 5 (sizeRatio * 10)
  let emotionBoost := (emotionalIntensity / 5) * 1.0
  let total := min 5 (sizeScore + emotionBoost)
  round1 total

/-- Source `PriorityScorer.calculateMarketSize`.  `dataScore` starts at the base
value `2.5` and is reassigned inside the `totalDataSize >= 50` branch,
with the two data-volume bonuses applied in the source's order. -/
def calculateMarketSize (clusterSize totalDataSize glmMarketScore : ℚ) : ℚ :=
  let dataScore : ℚ :=
    if 50 ≤ totalDataSize then
      let base := min 5 (2.0 + (clusterSize / totalDataSize) * 15)
      if 200 ≤ totalDataSize then min 5 (base + 0.5)
      else if 100 ≤ totalDataSize then min 5 (base + 0.3)
      else base
    else 2.5
  round1 (dataScore * 0.4 + glmMarketScore * 0.6)

/-- Source `PriorityScorer.calculateCompetition`: count solutions whose name does
not contain any of the three placeholder markers, then map the count to a
score on the fixed 5/4/3/2/1 scale. -/
def calculateCompetition (existingSolutions : List Solution) : ℚ :=
  let validSolutions := existingSolutions.filter (fun s =>
    !(containsKw s.name "待调研") && !(containsKw s.name "解析失败") &&
      !(containsKw s.name "API调用失败"))
  let validCount := validSolutions.length
  if validCount = 0 then 5.0
  else if validCount = 1 then 4.0
  else if validCount = 2 then 3.0
  else if validCount = 3 then 2.0
  else 1.0

/-- Source `PriorityScorer.calculatePriority`: the `level` is decided on the raw
weighted sum; the stored `overall` is that sum rounded to one decimal. -/
def calculatePriority (demandIntensity marketSize competition : ℚ) : PriorityScore :=
  let overall := demandIntensity * 0.4 + marketSize * 0.3 + competition * 0.3
  let level : Level :=
    if 3.5 ≤ overall then Level.High
    else if 2.5 ≤ overall then Level.Medium
    else Level.Low
  { demand_intensity := demandIntensity
    market_size := marketSize
    competition := competition
    overall := round1 overall
    level := level }

/-- Source `PriorityScorer.scoreCluster`: the full scoring pipeline. -/
def scoreCluster (clusterSize totalDataSize emotionalIntensity glmMarketScore : ℚ)
    (existingSolutions : List Solution) : PriorityScore :=
  calculatePriority
    (calculateDemandIntensity clusterSize totalDataSize emotionalIntensity)
    (calculateMarketSize clusterSize totalDataSize glmMarketScore)
    (calculateCompetition existingSolutions)

end PriorityScorer

/-!
### Bounds lemmas for the scorer
-/

theorem round1_nonneg {x : ℚ} (h : 0 ≤ x) : 0 ≤ round1 x := by
  unfold round1 jsRound
  have h1 : (0 : ℤ) ≤ ⌊x * 10 + 1/2⌋ := by
    apply Int.le_floor.mpr
    push_cast
    nlinarith
  exact div_nonneg (by exact_mod_cast h1) (by norm_num)

theorem round1_le_five {x : ℚ} (h : x ≤ 5) : round1 x ≤ 5 := by
  unfold round1 jsRound
  have h1 : ⌊x * 10 + 1/2⌋ ≤ 50 := by
    have : x * 10 + 1/2 ≤ 50 + 1/2 := by linarith
    calc ⌊x * 10 + 1/2⌋ ≤ ⌊(50 : ℚ) + 1/2⌋ := Int.floor_le_floor this
      _ = 50 := by norm_num [Int.floor_eq_iff]
  have h2 : (⌊x * 10 + 1/2⌋ : ℚ) ≤ 50 := by exact_mod_cast h1
  linarith

namespace PriorityScorer

theorem calculateDemandIntensity_bounds (c t e : ℚ)
    (hc : 0 ≤ c) (ht : 0 < t) (he : 0 ≤ e) :
    0 ≤ calculateDemandIntensity c t e ∧ calculateDemandIntensity c t e ≤ 5 := by
  unfold calculateDemandIntensity
  have hr : 0 ≤ c / t := div_nonneg hc ht.le
  have hs : 0 ≤ min 5 (c / t * 10) :=
    le_min (by norm_num) (by nlinarith)
  have hb : 0 ≤ e / 5 * 1.0 := by
    have := div_nonneg he (by norm_num : (0:ℚ) ≤ 5)
    nlinarith
  exact ⟨round1_nonneg (le_min (by norm_num) (by linarith)),
    round1_le_five (min_le_left _ _)⟩

theorem calculateMarketSize_bounds (c t g : ℚ)
    (hc : 0 ≤ c) (ht : 0 ≤ t) (hg0 : 0 ≤ g) (hg5 : g ≤ 5) :
    0 ≤ calculateMarketSize c t g ∧ calculateMarketSize c t g ≤ 5 := by
  unfold calculateMarketSize
  set ds : ℚ :=
    if 50 ≤ t then
      let base := min 5 (2.0 + c / t * 15)
      if 200 ≤ t then min 5 (base + 0.5)
      else if 100 ≤ t then min 5 (base + 0.3)
      else base
    else 2.5 with hds
  have hdsb : 0 ≤ ds ∧ ds ≤ 5 := by
    rw [hds]
    by_cases h50 : 50 ≤ t
    · have ht0 : (0:ℚ) < t := by linarith
      have hr : 0 ≤ c / t := div_nonneg hc ht0.le
      have hbase0 : 0 ≤ min 5 (2.0 + c / t * 15) :=
        le_min (by norm_num) (by nlinarith)
      by_cases h200 : 200 ≤ t
      · simp only [h50, h200, if_true]
        exact ⟨le_min (by norm_num) (by linarith), min_le_left _ _⟩
      · by_cases h100 : 100 ≤ t
        · simp only [h50, h200, h100, if_true, if_false]
          exact ⟨le_min (by norm_num) (by linarith), min_le_left _ _⟩
        · simp only [h50, h200, h100, if_true, if_false]
          exact ⟨hbase0, min_le_left _ _⟩
    · simp only [h50, if_false]
      norm_num
  constructor
  · exact round1_nonneg (by nlinarith [hdsb.1, hdsb.2])
  · exact round1_le_five (by nlinarith [hdsb.1, hdsb.2])

theorem calculateCompetition_bounds (sols : List Solution) :
    0 ≤ calculateCompetition sols ∧ calculateCompetition sols ≤ 5 := by
  unfold calculateCompetition
  dsimp only
  split_ifs <;> norm_num

/-- The function `calculatePriority` written as an explicit record (definitional). -/
theorem calculatePriority_def (d m c : ℚ) :
    calculatePriority d m c =
      { demand_intensity := d
        market_size := m
        competition := c
        overall := round1 (d * 0.4 + m * 0.3 + c * 0.3)
        level :=
          if 3.5 ≤ d * 0.4 + m * 0.3 + c * 0.3 then Level.High
          else if 2.5 ≤ d * 0.4 + m * 0.3 + c * 0.3 then Level.Medium
          else Level.Low } := rfl

theorem calculatePriority_overall_bounds (d m c : ℚ)
    (hd0 : 0 ≤ d) (hd5 : d ≤ 5) (hm0 : 0 ≤ m) (hm5 : m ≤ 5)
    (hc0 : 0 ≤ c) (hc5 : c ≤ 5) :
    0 ≤ (calculatePriority d m c).overall ∧ (calculatePriority d m c).overall ≤ 5 := by
  unfold calculatePriority
  exact ⟨round1_nonneg (by nlinarith), round1_le_five (by nlinarith)⟩

end PriorityScorer

/-- C2 counterexample: the claim asserts every `PriorityScorer` output lies
in `[0,5]` for arbitrary non-negative inputs, but `calculateMarketSize`
never clamps its weighted total: with `glmMarketScore = 10` (non-negative)
it returns `2.5 * 0.4 + 10 * 0.6 = 7`, outside `[0,5]`. -/
theorem calculateMarketSize_exceeds_five :
    PriorityScorer.calculateMarketSize 0 0 10 = 7 ∧
      ¬ PriorityScorer.calculateMarketSize 0 0 10 ≤ 5 := by
  constructor <;>
    norm_num [PriorityScorer.calculateMarketSize, round1, jsRound]

/-- C2 (amended): all four fields of the priority score lie in `[0,5]` for
non-negative inputs, provided the GLM market-size estimate is itself within
`[0,5]` (which the GLM client's clamping guarantees in the pipeline); for a
non-negative `glmMarketScore` above 5 the `market_size` output can exceed 5
since `calculateMarketSize` does not clamp its weighted total. -/
theorem scoreCluster_bounds (c t e g : ℚ) (sols : List PriorityScorer.Solution)
    (hc : 0 ≤ c) (ht : 0 < t) (he : 0 ≤ e) (hg0 : 0 ≤ g) (hg5 : g ≤ 5) :
    (0 ≤ (PriorityScorer.scoreCluster c t e g sols).demand_intensity ∧
        (PriorityScorer.scoreCluster c t e g sols).demand_intensity ≤ 5) ∧
      (0 ≤ (PriorityScorer.scoreCluster c t e g sols).market_size ∧
        (PriorityScorer.scoreCluster c t e g sols).market_size ≤ 5) ∧
      (0 ≤ (PriorityScorer.scoreCluster c t e g sols).competition ∧
        (PriorityScorer.scoreCluster c t e g sols).competition ≤ 5) ∧
      (0 ≤ (PriorityScorer.scoreCluster c t e g sols).overall ∧
        (PriorityScorer.scoreCluster c t e g sols).overall ≤ 5) := by
  have hd := PriorityScorer.calculateDemandIntensity_bounds c t e hc ht he
  have hm := PriorityScorer.calculateMarketSize_bounds c t g hc ht.le hg0 hg5
  have hcp := PriorityScorer.calculateCompetition_bounds sols
  have ho := PriorityScorer.calculatePriority_overall_bounds _ _ _
    hd.1 hd.2 hm.1 hm.2 hcp.1 hcp.2
  exact ⟨hd, hm, hcp, ho⟩

/-- Witness for `scoreCluster_bounds` at a concrete input. -/
theorem scoreCluster_bounds_witness :
    (0 ≤ (PriorityScorer.scoreCluster 10 100 3 4 []).demand_intensity ∧
        (PriorityScorer.scoreCluster 10 100 3 4 []).demand_intensity ≤ 5) ∧
      (0 ≤ (PriorityScorer.scoreCluster 10 100 3 4 []).market_size ∧
        (PriorityScorer.scoreCluster 10 100 3 4 []).market_size ≤ 5) ∧
      (0 ≤ (PriorityScorer.scoreCluster 10 100 3 4 []).competition ∧
        (PriorityScorer.scoreCluster 10 100 3 4 []).competition ≤ 5) ∧
      (0 ≤ (PriorityScorer.scoreCluster 10 100 3 4 []).overall ∧
        (PriorityScorer.scoreCluster 10 100 3 4 []).overall ≤ 5) :=
  scoreCluster_bounds 10 100 3 4 [] (by norm_num) (by norm_num) (by norm_num)
    (by norm_num) (by norm_num)

/-- C3 counterexample: the claim ties `level` to the *returned* (rounded)
`overall`, but the code decides `level` on the unrounded weighted sum.  At
`(3.4, 3.5, 3.5)` the raw sum is `3.46`, so `level = Medium`, while the
stored `overall` rounds up to `3.5`, which the claim says should give
`High`. -/
theorem calculatePriority_level_mismatch :
    (3.5 : ℚ) ≤ (PriorityScorer.calculatePriority 3.4 3.5 3.5).overall ∧
      (PriorityScorer.calculatePriority 3.4 3.5 3.5).level ≠
        PriorityScorer.Level.High := by
  rw [PriorityScorer.calculatePriority_def]
  refine ⟨by norm_num [round1, jsRound], ?_⟩
  have h1 : ¬ (3.5 : ℚ) ≤ 3.4 * 0.4 + 3.5 * 0.3 + 3.5 * 0.3 := by norm_num
  have h2 : (2.5 : ℚ) ≤ 3.4 * 0.4 + 3.5 * 0.3 + 3.5 * 0.3 := by norm_num
  simp only [h1, h2, if_true, if_false]
  decide

/-- C3 (amended): `overall` is the weighted sum
`demand*0.4 + market*0.3 + competition*0.3` rounded to one decimal, and
`level` is decided by the *unrounded* weighted sum: `High` iff it is
`≥ 3.5`, `Medium` iff it is in `[2.5, 3.5)`, `Low` iff it is `< 2.5`. -/
theorem calculatePriority_spec (d m c : ℚ) :
    (PriorityScorer.calculatePriority d m c).overall =
        round1 (d * 0.4 + m * 0.3 + c * 0.3) ∧
      ((PriorityScorer.calculatePriority d m c).level = PriorityScorer.Level.High ↔
        3.5 ≤ d * 0.4 + m * 0.3 + c * 0.3) ∧
      ((PriorityScorer.calculatePriority d m c).level = PriorityScorer.Level.Medium ↔
        2.5 ≤ d * 0.4 + m * 0.3 + c * 0.3 ∧ d * 0.4 + m * 0.3 + c * 0.3 < 3.5) ∧
      ((PriorityScorer.calculatePriority d m c).level = PriorityScorer.Level.Low ↔
        d * 0.4 + m * 0.3 + c * 0.3 < 2.5) := by
  rw [PriorityScorer.calculatePriority_def]
  by_cases h1 : (3.5 : ℚ) ≤ d * 0.4 + m * 0.3 + c * 0.3
  · rw [if_pos h1]
    refine ⟨rfl, ⟨fun _ => h1, fun _ => rfl⟩, ?_, ?_⟩
    · constructor
      · intro h; simp at h
      · rintro ⟨-, hlt⟩; exact absurd h1 (not_le.mpr hlt)
    · constructor
      · intro h; simp at h
      · intro hlt; exact absurd h1 (not_le.mpr (by linarith))
  · rw [if_neg h1]
    by_cases h2 : (2.5 : ℚ) ≤ d * 0.4 + m * 0.3 + c * 0.3
    · rw [if_pos h2]
      refine ⟨rfl, ?_, ?_, ?_⟩
      · constructor
        · intro h; simp at h
        · intro h; exact absurd h h1
      · exact ⟨fun _ => ⟨h2, lt_of_not_le h1⟩, fun _ => rfl⟩
      · constructor
        · intro h; simp at h
        · intro h; exact absurd h2 (not_le.mpr h)
    · rw [if_neg h2]
      refine ⟨rfl, ?_, ?_, ?_⟩
      · constructor
        · intro h; simp at h
        · intro h; exact absurd h h1
      · constructor
        · intro h; simp at h
        · intro h; exact absurd h.1 h2
      · exact ⟨fun _ => lt_of_not_le h2, fun _ => rfl⟩

/-!
## Clustering gateway — `lib/services/clustering-service.ts`

`clusterTextsWithEmbeddings` shells out to an external Python process; its
outcome is modelled as an explicit `ClusteringResult` parameter (the
process-spawn wrapper itself always resolves, mapping transport errors to
`success := false` with no clusters).
-/

namespace ClusteringService

/-- One semantic cluster in the Python service's response
(`SemanticCluster` interface). -/
structure SemanticCluster where
  representative_text : String
  size : ℕ
  texts : List String
deriving DecidableEq, Repr

/-- Response shape of the external embedding-clustering call
(`ClusteringResult` interface; the counts and error string do not influence
`clusterTexts` and are omitted). -/
structure ClusteringResult where
  success : Bool
  clusters : List SemanticCluster
deriving DecidableEq, Repr

/-- The fixed keyword vocabulary of `fallbackCluster`. -/
def fallbackKeywords : List String :=
  ["价格", "质量", "服务", "功能", "使用", "推荐", "问题", "效果"]

/-- The bucket a text is assigned to in `fallbackCluster`: the first
matching keyword (the loop breaks at the first hit), else the catch-all
bucket `其他`. -/
def bucketKey (text : String) : String :=
  match fallbackKeywords.find? (fun keyword => containsKw text keyword) with
  | some keyword => keyword
  | none => "其他"

/-- Append `text` to bucket `k` of an insertion-ordered bucket list; models
the JS `Map<string, string[]>` of `fallbackCluster`, whose iteration order
is key-insertion order. -/
def addToBucket : List (String × List String) → String → String → List (String × List String)
  | [], k, t => [(k, [t])]
  | (k', ts) :: rest, k, t =>
      if k' = k then (k', ts ++ [t]) :: rest else (k', ts) :: addToBucket rest k t

/-- The bucket map built by `fallbackCluster`'s loop over `texts`. -/
def buckets (texts : List String) : List (String × List String) :=
  texts.foldl (fun m t => addToBucket m (bucketKey t) t) []

/-- Source `ClusteringService.fallbackCluster`: keyword buckets, filtered by the
minimum cluster size.  There is no final all-in-one-group fallback after
the filter. -/
def fallbackCluster (texts : List String) (minClusterSize : ℕ) : List (List String) :=
  if texts.length = 0 then []
  else if texts.length < minClusterSize then [texts]
  else ((buckets texts).map Prod.snd).filter (fun c => minClusterSize ≤ c.length)

/-- Source `ClusteringService.clusterTexts`, with the external call's outcome as
an explicit parameter: on `success: false` or zero clusters it degrades to
`fallbackCluster`; otherwise it converts the clusters to the old format. -/
def clusterTexts (result : ClusteringResult) (texts : List String)
    (minClusterSize : ℕ) : List (List String) :=
  if !result.success || result.clusters.length == 0 then
    fallbackCluster texts minClusterSize
  else
    result.clusters.map (fun c => c.texts)

/-- The pain-indicator keywords of `calculateRepresentativeness`. -/
def painKeywords : List String := ["怎么", "难", "坑", "贵", "问题", "希望", "不懂"]

/-- Source `ClusteringService.calculateRepresentativeness` (the embedding-service
variant, which scores by length bands plus keyword bonuses and ignores the
rest of the cluster). -/
def calculateRepresentativeness (text : String) (cluster : List String) : ℚ :=
  let textLength := text.length
  let s1 : ℚ := 1.0
  let s2 : ℚ := if textLength < 10 then 0.5 else s1
  let lengthScore : ℚ :=
    if textLength > 200 then 0.7
    else if 20 ≤ textLength ∧ textLength ≤ 100 then 1.2
    else s2
  let keywordScore : ℚ :=
    painKeywords.foldl (fun acc keyword =>
      if containsKw text keyword then acc + 0.3 else acc) 0
  lengthScore + keywordScore

/-- Source `ClusteringService.getRepresentativeTexts`: if the cluster fits, return
it unchanged; otherwise score, sort descending (stable JS sort), and take
the top `maxCount`. -/
def getRepresentativeTexts (cluster : List String) (maxCount : ℕ) : List String :=
  if cluster.length ≤ maxCount then cluster
  else
    let scored := cluster.map (fun text => (text, calculateRepresentativeness text cluster))
    let sorted := sortDesc (fun p => p.2) scored
    (sorted.take maxCount).map Prod.fst

end ClusteringService

namespace ClusteringService

/-- The degraded-path condition of `clusterTexts`, as a proposition. -/
theorem degrade_cond_iff (result : ClusteringResult) :
    (!result.success || result.clusters.length == 0) = true ↔
      (result.success = false ∨ result.clusters = []) := by
  rcases result with ⟨s, cl⟩
  cases s <;> simp [List.length_eq_zero]

end ClusteringService

/-- C1 counterexample: with the external clustering failed, two non-empty
input texts that land in two different keyword buckets (each of size 1 <
`minClusterSize = 2`) are both discarded by the bucket-size filter, and
`clusterTexts` returns the empty list — there is no final single-group
fallback. -/
theorem clusterTexts_empty_on_nonempty_input :
    ClusteringService.clusterTexts ⟨false, []⟩ ["价格", "质量"] 2 = [] ∧
      (["价格", "质量"] : List String) ≠ [] :=
  ⟨rfl, by decide⟩

/-- C1 (amended): for non-empty input, `clusterTexts` returns zero groups
exactly when the degraded path is taken (external failure or zero external
clusters) with `minClusterSize ≤ texts.length` and every keyword bucket
undersized; the single group containing all input texts is returned on the
degraded path only when `texts.length < minClusterSize`. -/
theorem clusterTexts_empty_iff (result : ClusteringService.ClusteringResult)
    (texts : List String) (minClusterSize : ℕ) (h : texts ≠ []) :
    (ClusteringService.clusterTexts result texts minClusterSize = [] ↔
      (result.success = false ∨ result.clusters = []) ∧
        minClusterSize ≤ texts.length ∧
        ∀ b ∈ ClusteringService.buckets texts, b.2.length < minClusterSize) ∧
    (texts.length < minClusterSize →
      (result.success = false ∨ result.clusters = []) →
      ClusteringService.clusterTexts result texts minClusterSize = [texts]) := by
  have hlen : texts.length ≠ 0 := fun h0 => h (List.length_eq_zero.mp h0)
  unfold ClusteringService.clusterTexts
  by_cases hcond : (!result.success || result.clusters.length == 0) = true
  · rw [if_pos hcond]
    have hdeg := (ClusteringService.degrade_cond_iff result).mp hcond
    unfold ClusteringService.fallbackCluster
    rw [if_neg hlen]
    by_cases hsmall : texts.length < minClusterSize
    · rw [if_pos hsmall]
      constructor
      · constructor
        · intro habs; exact absurd habs (by simp)
        · rintro ⟨-, hge, -⟩; exact absurd hge (not_le.mpr hsmall)
      · intro _ _; rfl
    · rw [if_neg hsmall]
      constructor
      · rw [List.filter_eq_nil_iff]
        constructor
        · intro hall
          refine ⟨hdeg, le_of_not_lt hsmall, ?_⟩
          intro b hb
          have := hall b.2 (List.mem_map_of_mem Prod.snd hb)
          simpa using this
        · rintro ⟨-, -, hall⟩
          intro c hc
          rcases List.mem_map.mp hc with ⟨b, hb, rfl⟩
          simpa using hall b hb
      · intro hsmall' _; exact absurd hsmall' hsmall
  · rw [if_neg hcond]
    have hne : ¬ (result.success = false ∨ result.clusters = []) :=
      fun hdeg => hcond ((ClusteringService.degrade_cond_iff result).mpr hdeg)
    constructor
    · constructor
      · intro hmap
        rcases List.map_eq_nil_iff.mp hmap with hnil
        exact absurd (Or.inr hnil) hne
      · rintro ⟨hdeg, -, -⟩; exact absurd hdeg hne
    · intro _ hdeg; exact absurd hdeg hne

/-- Witness for `clusterTexts_empty_iff`: a single too-short input list on
the degraded path yields the all-in-one group. -/
theorem clusterTexts_empty_iff_witness :
    ClusteringService.clusterTexts ⟨false, []⟩ ["价格"] 2 = [["价格"]] :=
  (clusterTexts_empty_iff ⟨false, []⟩ ["价格"] 2 (by decide)).2
    (by decide) (Or.inl rfl)

/-- C7: `getRepresentativeTexts` returns the cluster unchanged when it
fits within `maxCount`; otherwise exactly `maxCount` texts ordered by
descending representativeness score.  In all cases the output has at most
`min (cluster.length) maxCount` items and is chosen without replacement
(it is a sub-permutation of the cluster, so it cannot contain an item more
often than the cluster does; in particular duplicate-free input yields
duplicate-free output). -/
theorem getRepresentativeTexts_spec (cluster : List String) (maxCount : ℕ) :
    (cluster.length ≤ maxCount →
      ClusteringService.getRepresentativeTexts cluster maxCount = cluster) ∧
    (maxCount < cluster.length →
      (ClusteringService.getRepresentativeTexts cluster maxCount).length = maxCount) ∧
    (maxCount < cluster.length →
      (ClusteringService.getRepresentativeTexts cluster maxCount).Pairwise
        (fun a b => ClusteringService.calculateRepresentativeness b cluster ≤
          ClusteringService.calculateRepresentativeness a cluster)) ∧
    (ClusteringService.getRepresentativeTexts cluster maxCount).length ≤
      min cluster.length maxCount ∧
    List.Subperm (ClusteringService.getRepresentativeTexts cluster maxCount) cluster ∧
    (cluster.Nodup →
      (ClusteringService.getRepresentativeTexts cluster maxCount).Nodup) := by
  unfold ClusteringService.getRepresentativeTexts
  by_cases hle : cluster.length ≤ maxCount
  · rw [if_pos hle]
    refine ⟨fun _ => rfl, ?_, ?_, ?_, ?_, fun hnd => hnd⟩
    · intro hgt; exact absurd hle (not_le.mpr hgt)
    · intro hgt; exact absurd hle (not_le.mpr hgt)
    · omega
    · exact List.Subperm.refl cluster
  · rw [if_neg hle]
    have hgt : maxCount < cluster.length := lt_of_not_le hle
    set scored := cluster.map
      (fun text => (text, ClusteringService.calculateRepresentativeness text cluster))
      with hscored
    set sorted := sortDesc (fun p => p.2) scored with hsorted
    have hperm : List.Perm sorted scored := sortDesc_perm _ scored
    have hlen_sorted : sorted.length = cluster.length := by
      rw [hperm.length_eq, hscored, List.length_map]
    have hfst : List.Perm (sorted.map Prod.fst) cluster := by
      have h1 : List.Perm (sorted.map Prod.fst) (scored.map Prod.fst) :=
        hperm.map Prod.fst
      have h2 : scored.map Prod.fst = cluster := by
        rw [hscored, List.map_map]; exact List.map_id cluster
      rw [h2] at h1; exact h1
    have hsub : List.Sublist ((sorted.take maxCount).map Prod.fst)
        (sorted.map Prod.fst) :=
      (List.take_sublist maxCount sorted).map Prod.fst
    have hsubperm : List.Subperm ((sorted.take maxCount).map Prod.fst) cluster :=
      hsub.subperm.trans hfst.subperm
    have hlen : ((sorted.take maxCount).map Prod.fst).length = maxCount := by
      rw [List.length_map, List.length_take, hlen_sorted]
      omega
    refine ⟨?_, fun _ => hlen, ?_, ?_, hsubperm, ?_⟩
    · intro hle'; exact absurd hle' hle
    · intro _
      have hkeymem : ∀ p ∈ sorted, p.2 =
          ClusteringService.calculateRepresentativeness p.1 cluster := by
        intro p hp
        have hp' : p ∈ scored := hperm.mem_iff.mp hp
        rcases List.mem_map.mp hp' with ⟨t, _, rfl⟩
        rfl
      have hpw : (sorted.take maxCount).Pairwise
          (fun p q => (q : String × ℚ).2 ≤ p.2) :=
        (sortDesc_pairwise (fun p => p.2) scored).sublist
          (List.take_sublist maxCount sorted)
      have hpw' : (sorted.take maxCount).Pairwise (fun p q =>
          ClusteringService.calculateRepresentativeness q.1 cluster ≤
            ClusteringService.calculateRepresentativeness p.1 cluster) := by
        refine List.Pairwise.imp_of_mem ?_ hpw
        intro p q hp hq hle2
        have hpmem := hkeymem p ((List.take_sublist maxCount sorted).mem hp)
        have hqmem := hkeymem q ((List.take_sublist maxCount sorted).mem hq)
        rw [← hpmem, ← hqmem]
        exact hle2
      exact List.pairwise_map.mpr hpw'
    · rw [hlen]; omega
    · intro hnd
      rcases hsubperm with ⟨l, hlp, hls⟩
      exact hlp.nodup_iff.mp (hls.nodup hnd)

/-- Witness for `getRepresentativeTexts_spec`: an oversized concrete
cluster is cut to exactly `maxCount` items. -/
theorem getRepresentativeTexts_spec_witness :
    (ClusteringService.getRepresentativeTexts ["为什么这么贵", "好", "怎么用啊不懂"] 2).length = 2 :=
  (getRepresentativeTexts_spec ["为什么这么贵", "好", "怎么用啊不懂"] 2).2.1 (by decide)

/-!
## GLM deep-analysis client — `lib/services/glm-service.ts`

The transport (axios call) and `JSON.parse` are modelled by an explicit
outcome parameter: the call failed, the response parsed, or parsing
failed.  Parsed JSON values are modelled by an inductive `Json`
(JS `undefined` and `null` coincide here: both are falsy, fail the
`typeof x === 'number'` test and the `includes` membership test, and
property access on either yields `undefined`).  Fields that the code
defaults with `||` can retain arbitrary JSON values when truthy, so they
are `Json`-typed in the result; fields guarded by a `typeof === 'number'`
check are `ℚ`; `paid_interest` is guarded by a string-membership check and
is enum-typed. -/

inductive Json
  | null
  | bool (b : Bool)
  | num (q : ℚ)
  | str (s : String)
  | arr (elems : List Json)
  | obj (fields : List (String × Json))

namespace Json

/-- JS property access `j.k` (with optional chaining collapsed into it):
`undefined` on non-objects and missing keys. -/
def get : Json → String → Json
  | .obj fields, k => match fields.lookup k with
    | some v => v
    | none => .null
  | _, _ => .null

/-- JS truthiness for the modelled values. -/
def truthy : Json → Bool
  | .null => false
  | .bool b => b
  | .num q => q != 0
  | .str s => s != ""
  | .arr _ => true
  | .obj _ => true

/-- JS `typeof j === 'number'` check plus the numeric value. -/
def asNum? : Json → Option ℚ
  | .num q => some q
  | _ => none

end Json

/-- JS `a || b` on JSON values. -/
def jsOr (j d : Json) : Json := if j.truthy then j else d

/-- JS `a || b` where `a` is a nullable string (empty string is falsy). -/
def strOr (o : Option String) (d : String) : String :=
  match o with
  | some s => if s = "" then d else s
  | none => d

namespace GLMService

/-- The `paid_interest` union type. -/
inductive PaidInterest
  | High
  | Medium
  | Low
deriving DecidableEq, Repr

/-- The `pain_depth` sub-structure of `DeepAnalysisResult`. -/
structure PainDepth where
  surface_pain : Json
  root_causes : Json
  user_scenarios : Json
  emotional_intensity : ℚ

/-- The `market_landscape` sub-structure of `DeepAnalysisResult`. -/
structure MarketLandscape where
  existing_solutions : Json
  unmet_needs : Json
  opportunity : Json

/-- The `mvp_plan` sub-structure of `DeepAnalysisResult`. -/
structure MvpPlan where
  core_features : Json
  validation_hypotheses : Json
  first_users : Json
  timeline : Json
  estimated_cost : Json

/-- The `DeepAnalysisResult` produced by `analyzeCluster`. -/
structure DeepAnalysisResult where
  one_line_pain : Json
  paid_interest : PaidInterest
  rationale : Json
  potential_product : Json
  pain_depth : PainDepth
  market_landscape : MarketLandscape
  mvp_plan : MvpPlan
  keyword_relevance : ℚ
  market_size_score : ℚ

/-- Outcome of the external call and JSON parse, as seen by the
response-handling code of `analyzeCluster`. -/
inductive GLMOutcome
  | apiFailure
  | parseFailure (content : String)
  | parsed (json : Json)

/-- The `['High', 'Medium', 'Low'].includes(...) ? ... : 'Medium'`
validation of `paid_interest`. -/
def parsePaidInterest : Json → PaidInterest
  | .str s =>
      if s = "High" then PaidInterest.High
      else if s = "Medium" then PaidInterest.Medium
      else if s = "Low" then PaidInterest.Low
      else PaidInterest.Medium
  | _ => PaidInterest.Medium

/-- JS `typeof x === 'number' ? x : d`. -/
def numOr (j : Json) (d : ℚ) : ℚ :=
  match j.asNum? with
  | some q => q
  | none => d

/-- Source `GLMService.extractFromText`: first line containing the keyword, with
ASCII double quotes removed and whitespace trimmed; `null` otherwise. -/
def extractFromText (text keyword : String) : Option String :=
  ((text.splitOn "\n").find? (fun line => containsKw line keyword)).map
    (fun line => (String.mk (line.data.filter (fun ch => ch ≠ '"'))).trim)

/-- Source `GLMService.generateDefaultPain`. -/
def generateDefaultPain (texts : List String) : String :=
  if texts.length = 0 then "用户需求待分析"
  else
    let commonKeywords : List String := ["问题", "困难", "不知道", "怎么办", "求助", "请教"]
    let hasProblems := texts.any (fun text =>
      commonKeywords.any (fun keyword => containsKw text keyword))
    if hasProblems then "用户在相关领域遇到问题，寻求解决方案和指导"
    else "用户对相关主题有兴趣和需求，期待更好的体验"

/-- The field-by-field validation of a successfully parsed response
(`analyzeCluster`, success branch). -/
def validateParsed (parsed : Json) : DeepAnalysisResult :=
  { one_line_pain := jsOr (parsed.get "one_line_pain") (.str "用户存在某种需求痛点")
    paid_interest := parsePaidInterest (parsed.get "paid_interest")
    rationale := jsOr (parsed.get "rationale") (.str "基于用户评论内容分析")
    potential_product := jsOr (parsed.get "potential_product") (.str "针对用户需求的解决方案")
    pain_depth :=
      { surface_pain := jsOr ((parsed.get "pain_depth").get "surface_pain")
          (jsOr (parsed.get "one_line_pain") (.str "痛点待分析"))
        root_causes := jsOr ((parsed.get "pain_depth").get "root_causes")
          (.arr [.str "根因待深挖"])
        user_scenarios := jsOr ((parsed.get "pain_depth").get "user_scenarios")
          (.arr [.str "使用场景待明确"])
        emotional_intensity := numOr ((parsed.get "pain_depth").get "emotional_intensity") 2 }
    market_landscape :=
      { existing_solutions := jsOr ((parsed.get "market_landscape").get "existing_solutions")
          (.arr [.obj [("name", .str "待调研"), ("limitation", .str "竞品信息需进一步收集")]])
        unmet_needs := jsOr ((parsed.get "market_landscape").get "unmet_needs")
          (.arr [.str "待识别未满足需求"])
        opportunity := jsOr ((parsed.get "market_landscape").get "opportunity")
          (.str "市场机会待评估") }
    mvp_plan :=
      { core_features := jsOr ((parsed.get "mvp_plan").get "core_features")
          (.arr [.str "核心功能待设计"])
        validation_hypotheses := jsOr ((parsed.get "mvp_plan").get "validation_hypotheses")
          (.arr [.obj [("hypothesis", .str "用户需求假设"), ("test_method", .str "测试方法待定")]])
        first_users := jsOr ((parsed.get "mvp_plan").get "first_users")
          (.str "用户获取渠道待规划")
        timeline := jsOr ((parsed.get "mvp_plan").get "timeline") (.str "时间待评估")
        estimated_cost := jsOr ((parsed.get "mvp_plan").get "estimated_cost")
          (.str "成本待评估") }
    keyword_relevance := numOr (parsed.get "keyword_relevance") 50
    market_size_score :=
      match (parsed.get "market_size_score").asNum? with
      | some q => min 5 (max 0 q)
      | none => 2.5 }

/-- The placeholder payload returned when the response is not parseable as
JSON (`analyzeCluster`, inner catch). -/
def parseFailureResult (content : String) : DeepAnalysisResult :=
  { one_line_pain := .str (strOr (extractFromText content "痛点")
      (content.take 50 ++ "..."))
    paid_interest := PaidInterest.Medium
    rationale := .str "基于GLM文本分析结果（JSON解析失败）"
    potential_product := .str (strOr (extractFromText content "产品")
      "需要进一步分析的产品概念")
    pain_depth :=
      { surface_pain := .str "解析失败，请查看原文"
        root_causes := .arr [.str "JSON格式错误"]
        user_scenarios := .arr [.str "无法提取"]
        emotional_intensity := 2 }
    market_landscape :=
      { existing_solutions := .arr [.obj [("name", .str "解析失败"), ("limitation", .str "无法提取")]]
        unmet_needs := .arr [.str "解析失败"]
        opportunity := .str "解析失败" }
    mvp_plan :=
      { core_features := .arr [.str "解析失败"]
        validation_hypotheses := .arr [.obj [("hypothesis", .str "解析失败"), ("test_method", .str "解析失败")]]
        first_users := .str "解析失败"
        timeline := .str "解析失败"
        estimated_cost := .str "解析失败" }
    keyword_relevance := 50
    market_size_score := 2.5 }

/-- The placeholder payload returned when the API call itself fails
(`analyzeCluster`, outer catch). -/
def apiFailureResult (texts : List String) : DeepAnalysisResult :=
  { one_line_pain := .str (generateDefaultPain texts)
    paid_interest := PaidInterest.Medium
    rationale := .str "GLM API调用失败，基于文本内容推断"
    potential_product := .str "基于用户需求的数字化解决方案"
    pain_depth :=
      { surface_pain := .str (generateDefaultPain texts)
        root_causes := .arr [.str "API调用失败，无法深度分析"]
        user_scenarios := .arr [.str "相关领域用户使用场景"]
        emotional_intensity := 2 }
    market_landscape :=
      { existing_solutions := .arr [.obj [("name", .str "API调用失败"), ("limitation", .str "无法获取竞品信息")]]
        unmet_needs := .arr [.str "需要进一步调研"]
        opportunity := .str "API调用失败，无法评估" }
    mvp_plan :=
      { core_features := .arr [.str "API调用失败"]
        validation_hypotheses := .arr [.obj [("hypothesis", .str "API调用失败"), ("test_method", .str "无法提供")]]
        first_users := .str "API调用失败"
        timeline := .str "API调用失败"
        estimated_cost := .str "API调用失败" }
    keyword_relevance := 50
    market_size_score := 2.5 }

/-- Source `GLMService.analyzeCluster`, its response handling: a total function of
the call outcome — every branch returns a fully-populated
`DeepAnalysisResult`, never an exception. -/
def analyzeCluster (texts : List String) (outcome : GLMOutcome) : DeepAnalysisResult :=
  match outcome with
  | .apiFailure => apiFailureResult texts
  | .parseFailure content => parseFailureResult content
  | .parsed json => validateParsed json

end GLMService

/-- C5 counterexample: `emotional_intensity` is only checked with
`typeof === 'number'`, not for the documented 0–5 range: a parsed value of
100 is passed through unchanged, so not every expected field is "validated
for type and range". -/
theorem emotional_intensity_not_range_checked :
    (GLMService.validateParsed
        (.obj [("pain_depth", .obj [("emotional_intensity", .num 100)])])).pain_depth.emotional_intensity
        = 100 ∧
      ¬ (GLMService.validateParsed
          (.obj [("pain_depth", .obj [("emotional_intensity", .num 100)])])).pain_depth.emotional_intensity
          ≤ 5 := by
  have h : (GLMService.validateParsed
      (.obj [("pain_depth", .obj [("emotional_intensity", .num 100)])])).pain_depth.emotional_intensity
      = 100 := rfl
  exact ⟨h, by rw [h]; norm_num⟩

/-- C5 (amended): `analyzeCluster`'s response handling is a total function
of the call outcome — both failure branches return the fully-populated
documented placeholder payload — and on a parsed response
`market_size_score` is type-checked, range-clamped to `[0,5]`, and defaults
to 2.5 when missing or non-numeric, while `paid_interest` falls back to
`Medium` on any unrecognized value.  (Fields such as `emotional_intensity`
and `keyword_relevance` are type-checked only; out-of-range numbers pass
through, per the counterexample.) -/
theorem analyzeCluster_defaults_spec (texts : List String)
    (outcome : GLMService.GLMOutcome) (parsed : Json) (content : String) :
    (0 ≤ (GLMService.analyzeCluster texts outcome).market_size_score ∧
      (GLMService.analyzeCluster texts outcome).market_size_score ≤ 5) ∧
    (parsed.get "paid_interest" ≠ Json.str "High" →
      parsed.get "paid_interest" ≠ Json.str "Medium" →
      parsed.get "paid_interest" ≠ Json.str "Low" →
      (GLMService.validateParsed parsed).paid_interest = GLMService.PaidInterest.Medium) ∧
    ((parsed.get "market_size_score").asNum? = none →
      (GLMService.validateParsed parsed).market_size_score = 2.5) ∧
    GLMService.analyzeCluster texts GLMService.GLMOutcome.apiFailure =
      GLMService.apiFailureResult texts ∧
    GLMService.analyzeCluster texts (GLMService.GLMOutcome.parseFailure content) =
      GLMService.parseFailureResult content := by
  refine ⟨?_, ?_, ?_, rfl, rfl⟩
  · cases outcome with
    | apiFailure =>
        have h : (GLMService.analyzeCluster texts GLMService.GLMOutcome.apiFailure).market_size_score
            = 2.5 := rfl
        rw [h]; norm_num
    | parseFailure c =>
        have h : (GLMService.analyzeCluster texts
            (GLMService.GLMOutcome.parseFailure c)).market_size_score = 2.5 := rfl
        rw [h]; norm_num
    | parsed j =>
        have h : (GLMService.analyzeCluster texts (GLMService.GLMOutcome.parsed j)).market_size_score
            = match (j.get "market_size_score").asNum? with
              | some q => min 5 (max 0 q)
              | none => 2.5 := rfl
        rw [h]
        cases hq : (j.get "market_size_score").asNum? with
        | none => norm_num
        | some q =>
            exact ⟨le_min (by norm_num) (le_max_left 0 q), min_le_left 5 _⟩
  · intro h1 h2 h3
    have h : (GLMService.validateParsed parsed).paid_interest =
        GLMService.parsePaidInterest (parsed.get "paid_interest") := rfl
    rw [h]
    cases hj : parsed.get "paid_interest" with
    | str s =>
        rw [GLMService.parsePaidInterest]
        rw [hj] at h1 h2 h3
        have hs1 : ¬ s = "High" := fun hs => h1 (by rw [hs])
        have hs2 : ¬ s = "Medium" := fun hs => h2 (by rw [hs])
        have hs3 : ¬ s = "Low" := fun hs => h3 (by rw [hs])
        rw [if_neg hs1, if_neg hs2, if_neg hs3]
    | null => rfl
    | bool b => rfl
    | num q => rfl
    | arr elems => rfl
    | obj fields => rfl
  · intro hnone
    have h : (GLMService.validateParsed parsed).market_size_score
        = match (parsed.get "market_size_score").asNum? with
          | some q => min 5 (max 0 q)
          | none => 2.5 := rfl
    rw [h, hnone]

/-- Witness for `analyzeCluster_defaults_spec`: a response whose
`paid_interest` is the unrecognized string `"very high"` and whose
`market_size_score` is a string gets the documented defaults. -/
theorem analyzeCluster_defaults_spec_witness :
    (GLMService.validateParsed
        (.obj [("paid_interest", .str "very high"), ("market_size_score", .str "big")])).paid_interest
        = GLMService.PaidInterest.Medium ∧
      (GLMService.validateParsed
          (.obj [("paid_interest", .str "very high"), ("market_size_score", .str "big")])).market_size_score
          = 2.5 :=
  ⟨(analyzeCluster_defaults_spec []
      GLMService.GLMOutcome.apiFailure
      (.obj [("paid_interest", .str "very high"), ("market_size_score", .str "big")])
      "").2.1 (by simp [Json.get]) (by simp [Json.get]) (by simp [Json.get]),
    (analyzeCluster_defaults_spec []
      GLMService.GLMOutcome.apiFailure
      (.obj [("paid_interest", .str "very high"), ("market_size_score", .str "big")])
      "").2.2.1 rfl⟩

/-!
## Job orchestrator — `lib/services/job-manager.ts`
-/

namespace JobManager

/-- The `Job.status` union type. -/
inductive JobStatus
  | processing
  | completed
  | failed
deriving DecidableEq, Repr

/-- The `Job.dataQuality.level` union type. -/
inductive QualityLevel
  | reliable
  | preliminary
  | exploratory
deriving DecidableEq, Repr

/-- The data-quality step function of `executeJob` (step 5). -/
def qualityLevel (totalDataSize : ℕ) : QualityLevel :=
  if totalDataSize < 50 then QualityLevel.exploratory
  else if totalDataSize < 200 then QualityLevel.preliminary
  else QualityLevel.reliable

/-- The `averageClusterSize` computation of `executeJob` (step 5):
`clusterCount > 0 ? Math.round(sum of sizes / clusterCount) : 0`. -/
def averageClusterSize (sizes : List ℕ) : ℤ :=
  if 0 < sizes.length then jsRound ((sizes.sum : ℚ) / sizes.length) else 0

/-- JS `x || d` on numbers (`0` is falsy), as used for
`analysis.pain_depth?.emotional_intensity || 2` and
`analysis.market_size_score || 2.5` in `executeJob`. -/
def jsNumOr (q d : ℚ) : ℚ := if q = 0 then d else q

/-- Decode of a JSON `existing_solutions` entry into the
`{name, limitation}` shape consumed by `calculateCompetition`. -/
def jsonToSolution (e : Json) : PriorityScorer.Solution :=
  { name :=
      match e.get "name" with
      | .str s => s
      | _ => ""
    limitation :=
      match e.get "limitation" with
      | .str s => s
      | _ => "" }

/-- Decode of the JSON `existing_solutions` array.  Per the schema this is
an array of `{name, limitation}` objects; a truthy non-array value would
make `calculateCompetition` throw in JS, which lands in `executeJob`'s
per-cluster catch — the case the `Except.error` outcome already covers. -/
def jsonToSolutions : Json → List PriorityScorer.Solution
  | .arr elems => elems.map jsonToSolution
  | _ => []

/-- The `ClusterResult.analysis` payload as assembled by `executeJob`: the four base
fields are `||`-defaulted; the deep-analysis dimensions are passed through
on success and absent (`undefined`) in the failure-branch default. -/
structure ClusterAnalysis where
  one_line_pain : Json
  paid_interest : GLMService.PaidInterest
  rationale : Json
  potential_product : Json
  pain_depth : Option GLMService.PainDepth
  market_landscape : Option GLMService.MarketLandscape
  mvp_plan : Option GLMService.MvpPlan
  keyword_relevance : Option ℚ

/-- The `ClusterResult` interface (`clustering-service.ts`), with the
optional `priority_score` attached by `executeJob`. -/
structure ClusterResult where
  id : String
  size : ℕ
  analysis : ClusterAnalysis
  representative_texts : List String
  priority_score : Option PriorityScorer.PriorityScore

/-- Source `ClusteringService.generateClusterId`. -/
def generateClusterId (index : ℕ) : String :=
  "cluster-" ++ toString (index + 1)

/-- The failure-branch default analysis of `executeJob`'s per-cluster
catch: a synthesized placeholder with no deep dimensions. -/
def defaultClusterAnalysis (keywords : List String) : ClusterAnalysis :=
  { one_line_pain := .str ("基于 " ++ String.intercalate ", " keywords ++ " 的用户需求痛点")
    paid_interest := GLMService.PaidInterest.Medium
    rationale := .str "由于LLM分析失败，基于聚类大小和代表性文本推断"
    potential_product := .str ("针对 " ++ String.intercalate ", " keywords ++ " 用户的解决方案")
    pain_depth := none
    market_landscape := none
    mvp_plan := none
    keyword_relevance := none }

/-- One iteration of `executeJob`'s per-cluster loop: on a successful GLM
call, score the cluster and attach the priority score; on a thrown call,
substitute the default result, which carries no `priority_score`. -/
def mkClusterResult (keywords : List String) (totalLen : ℕ) (i : ℕ)
    (cluster : List String)
    (outcome : Except Unit GLMService.DeepAnalysisResult) : ClusterResult :=
  let representativeTexts := ClusteringService.getRepresentativeTexts cluster 8
  match outcome with
  | .ok analysis =>
      { id := generateClusterId i
        size := cluster.length
        analysis :=
          { one_line_pain := jsOr analysis.one_line_pain (.str "用户痛点待分析")
            paid_interest := analysis.paid_interest
            rationale := jsOr analysis.rationale (.str "基于用户评论分析")
            potential_product := jsOr analysis.potential_product (.str "产品概念待构思")
            pain_depth := some analysis.pain_depth
            market_landscape := some analysis.market_landscape
            mvp_plan := some analysis.mvp_plan
            keyword_relevance := some analysis.keyword_relevance }
        representative_texts := representativeTexts.take 5
        priority_score := some (PriorityScorer.scoreCluster cluster.length totalLen
          (jsNumOr analysis.pain_depth.emotional_intensity 2)
          (jsNumOr analysis.market_size_score 2.5)
          (jsonToSolutions
            (jsOr analysis.market_landscape.existing_solutions (.arr [])))) }
  | .error _ =>
      { id := generateClusterId i
        size := cluster.length
        analysis := defaultClusterAnalysis keywords
        representative_texts := representativeTexts.take 5
        priority_score := none }

/-- The per-cluster results in loop order (index `start` onward), pairing
each cluster with its GLM-call outcome. -/
def buildResults (keywords : List String) (totalLen : ℕ) :
    ℕ → List (List String) → List (Except Unit GLMService.DeepAnalysisResult) →
      List ClusterResult
  | _, [], _ => []
  | _, _ :: _, [] => []
  | start, c :: cs, o :: os =>
      mkClusterResult keywords totalLen start c o ::
        buildResults keywords totalLen (start + 1) cs os

/-- The sort key of `executeJob`'s final sort:
`a.priority_score?.overall || 0` (for a present score, `x || 0 = x` — both
sides are `0` when `overall` is `0`). -/
def resultKey (r : ClusterResult) : ℚ :=
  match r.priority_score with
  | some p => p.overall
  | none => 0

/-- The final stored results: the in-order per-cluster results sorted by
`priority_score.overall` descending (stable JS sort). -/
def executeJobResults (keywords : List String) (totalLen : ℕ)
    (clusters : List (List String))
    (outcomes : List (Except Unit GLMService.DeepAnalysisResult)) : List ClusterResult :=
  sortDesc resultKey (buildResults keywords totalLen 0 clusters outcomes)

end JobManager

/-- C6: the data-quality grade is the documented step function of total
sample size (with the boundary samples 49/50/199/200 mapping as claimed),
and `averageClusterSize` is the integer-rounded mean of the result cluster
sizes. -/
theorem dataQuality_spec (n : ℕ) (sizes : List ℕ) :
    (n < 50 → JobManager.qualityLevel n = JobManager.QualityLevel.exploratory) ∧
    (50 ≤ n → n < 200 → JobManager.qualityLevel n = JobManager.QualityLevel.preliminary) ∧
    (200 ≤ n → JobManager.qualityLevel n = JobManager.QualityLevel.reliable) ∧
    JobManager.qualityLevel 49 = JobManager.QualityLevel.exploratory ∧
    JobManager.qualityLevel 50 = JobManager.QualityLevel.preliminary ∧
    JobManager.qualityLevel 199 = JobManager.QualityLevel.preliminary ∧
    JobManager.qualityLevel 200 = JobManager.QualityLevel.reliable ∧
    (sizes ≠ [] →
      JobManager.averageClusterSize sizes = jsRound ((sizes.sum : ℚ) / sizes.length)) := by
  refine ⟨?_, ?_, ?_, by decide, by decide, by decide, by decide, ?_⟩
  · intro h; unfold JobManager.qualityLevel; rw [if_pos h]
  · intro h1 h2
    unfold JobManager.qualityLevel
    rw [if_neg (by omega), if_pos h2]
  · intro h
    unfold JobManager.qualityLevel
    rw [if_neg (by omega), if_neg (by omega)]
  · intro hne
    unfold JobManager.averageClusterSize
    rw [if_pos (List.length_pos.mpr hne)]

/-- Witness for `dataQuality_spec` at the boundary sample sizes. -/
theorem dataQuality_spec_witness :
    JobManager.qualityLevel 199 = JobManager.QualityLevel.preliminary ∧
      JobManager.averageClusterSize [2, 4] = jsRound (((6 : ℚ)) / 2) :=
  ⟨(dataQuality_spec 199 []).2.1 (by omega) (by omega),
    (dataQuality_spec 0 [2, 4]).2.2.2.2.2.2.2 (by decide)⟩

namespace JobManager

/-- The slice of a `Job` record that the table-level operations read:
`cleanupExpiredJobs` tests only `startTime`; `status` is carried to show
that eviction ignores it. -/
structure JobEntry where
  status : JobStatus
  startTime : ℤ
deriving DecidableEq, Repr

/-- The job table `Map<string, Job>`, as a map from ids to entries. -/
def JobTable : Type := String → Option JobEntry

/-- Source `JobManager.getJob`: `this.jobs.get(jobId) || null`. -/
def getJob (jobs : JobTable) (jobId : String) : Option JobEntry := jobs jobId

/-- Source `JobManager.cleanupExpiredJobs`: delete every entry with
`now - job.startTime > maxAge`.  The JS loop decides each entry
independently, so iteration order is irrelevant and the map form is
exact. -/
def cleanupExpiredJobs (jobs : JobTable) (now maxAge : ℤ) : JobTable :=
  fun jobId =>
    match jobs jobId with
    | some job => if maxAge < now - job.startTime then none else some job
    | none => none

end JobManager

/-- C10: `cleanupExpiredJobs` deletes exactly the jobs strictly older than
`maxAge` (regardless of status — `getJob` then returns `null` for them) and
leaves every younger job unchanged. -/
theorem cleanupExpiredJobs_spec (jobs : JobManager.JobTable) (now maxAge : ℤ)
    (jobId : String) :
    (∀ job, jobs jobId = some job → maxAge < now - job.startTime →
      JobManager.getJob (JobManager.cleanupExpiredJobs jobs now maxAge) jobId = none) ∧
    (∀ job, jobs jobId = some job → now - job.startTime ≤ maxAge →
      JobManager.getJob (JobManager.cleanupExpiredJobs jobs now maxAge) jobId = some job) ∧
    (JobManager.getJob (JobManager.cleanupExpiredJobs jobs now maxAge) jobId = none ↔
      jobs jobId = none ∨
        ∃ job, jobs jobId = some job ∧ maxAge < now - job.startTime) := by
  refine ⟨?_, ?_, ?_⟩
  · intro job hj hgt
    show JobManager.cleanupExpiredJobs jobs now maxAge jobId = none
    unfold JobManager.cleanupExpiredJobs
    rw [hj]
    dsimp only
    rw [if_pos hgt]
  · intro job hj hle
    show JobManager.cleanupExpiredJobs jobs now maxAge jobId = some job
    unfold JobManager.cleanupExpiredJobs
    rw [hj]
    dsimp only
    rw [if_neg (not_lt.mpr hle)]
  · show JobManager.cleanupExpiredJobs jobs now maxAge jobId = none ↔ _
    unfold JobManager.cleanupExpiredJobs
    cases h : jobs jobId with
    | none => simp
    | some job =>
        dsimp only
        by_cases hage : maxAge < now - job.startTime
        · rw [if_pos hage]
          exact ⟨fun _ => Or.inr ⟨job, rfl, hage⟩, fun _ => rfl⟩
        · rw [if_neg hage]
          constructor
          · intro habs; exact absurd habs (by simp)
          · rintro (habs | ⟨job2, hj2, hgt2⟩)
            · exact absurd habs (by simp)
            · cases hj2
              exact absurd hgt2 hage

/-- Witness for `cleanupExpiredJobs_spec`: a still-`processing` job older
than `maxAge` is evicted and `getJob` then returns `null` for its id. -/
theorem cleanupExpiredJobs_spec_witness :
    JobManager.getJob
      (JobManager.cleanupExpiredJobs
        (fun id => if id = "job-1" then some ⟨JobManager.JobStatus.processing, 0⟩ else none)
        100 50)
      "job-1" = none :=
  (cleanupExpiredJobs_spec
      (fun id => if id = "job-1" then some ⟨JobManager.JobStatus.processing, 0⟩ else none)
      100 50 "job-1").1
    ⟨JobManager.JobStatus.processing, 0⟩ (by simp) (by norm_num)

/-- The function `buildResults` distributes over an appended cluster list, the loop
index continuing across the boundary: results are produced in construction
order, first list first. -/
theorem buildResults_append (keywords : List String) (totalLen : ℕ)
    (l1 l2 : List (List String)) (start : ℕ)
    (os : List (Except Unit GLMService.DeepAnalysisResult))
    (h : l1.length ≤ os.length) :
    JobManager.buildResults keywords totalLen start (l1 ++ l2) os =
      JobManager.buildResults keywords totalLen start l1 (os.take l1.length) ++
        JobManager.buildResults keywords totalLen (start + l1.length) l2
          (os.drop l1.length) := by
  induction l1 generalizing start os with
  | nil => simp [JobManager.buildResults]
  | cons c cs ih =>
      cases os with
      | nil => simp at h
      | cons o os' =>
          simp only [List.cons_append, JobManager.buildResults, List.length_cons,
            List.take_succ_cons, List.drop_succ_cons, List.append_eq]
          rw [ih (start + 1) os' (by simpa using h)]
          have harith : start + 1 + cs.length = start + (cs.length + 1) := by omega
          rw [harith]

/-- C4: the per-cluster results are produced in cluster-list order (video
clusters, which form the first part of the appended list, before comment
clusters, with the loop index continuing across the boundary); the final
stored list is that list sorted by `priority_score.overall` descending —
a permutation of it, pairwise sorted, and stable (results of equal key
keep their construction order), the sort being the only re-ordering. -/
theorem executeJob_results_order (keywords : List String) (totalLen : ℕ)
    (videoClusters commentClusters : List (List String))
    (outcomes : List (Except Unit GLMService.DeepAnalysisResult))
    (hlen : videoClusters.length ≤ outcomes.length) :
    JobManager.buildResults keywords totalLen 0 (videoClusters ++ commentClusters) outcomes =
      JobManager.buildResults keywords totalLen 0 videoClusters
          (outcomes.take videoClusters.length) ++
        JobManager.buildResults keywords totalLen videoClusters.length commentClusters
          (outcomes.drop videoClusters.length) ∧
    List.Perm
      (JobManager.executeJobResults keywords totalLen (videoClusters ++ commentClusters) outcomes)
      (JobManager.buildResults keywords totalLen 0 (videoClusters ++ commentClusters) outcomes) ∧
    (JobManager.executeJobResults keywords totalLen (videoClusters ++ commentClusters)
        outcomes).Pairwise
      (fun a b => JobManager.resultKey b ≤ JobManager.resultKey a) ∧
    ∀ k : ℚ,
      (JobManager.executeJobResults keywords totalLen (videoClusters ++ commentClusters)
          outcomes).filter (fun r => JobManager.resultKey r = k) =
        (JobManager.buildResults keywords totalLen 0 (videoClusters ++ commentClusters)
            outcomes).filter (fun r => JobManager.resultKey r = k) := by
  refine ⟨?_, ?_, ?_, ?_⟩
  · have h0 : (0 : ℕ) + videoClusters.length = videoClusters.length := by omega
    have := buildResults_append keywords totalLen videoClusters commentClusters 0 outcomes hlen
    rw [h0] at this
    exact this
  · exact sortDesc_perm _ _
  · exact sortDesc_pairwise _ _
  · intro k; exact sortDesc_stable _ _ k

/-- Witness for `executeJob_results_order`. -/
theorem executeJob_results_order_witness :
    List.Perm
      (JobManager.executeJobResults ["k"] 1 ([["价格"]] ++ []) [Except.error ()])
      (JobManager.buildResults ["k"] 1 0 ([["价格"]] ++ []) [Except.error ()]) :=
  (executeJob_results_order ["k"] 1 [["价格"]] [] [Except.error ()] (by decide)).2.1

/-- C9: a degraded cluster (its GLM call threw) carries no
`priority_score`, its sort key is 0, and in the final sorted list every
cluster with a positive overall score precedes it. -/
theorem degraded_results_ordered_last (keywords : List String) (totalLen : ℕ)
    (clusters : List (List String))
    (outcomes : List (Except Unit GLMService.DeepAnalysisResult))
    (i j : ℕ) (ri rj : JobManager.ClusterResult)
    (hi : (JobManager.executeJobResults keywords totalLen clusters outcomes).get? i = some ri)
    (hj : (JobManager.executeJobResults keywords totalLen clusters outcomes).get? j = some rj)
    (hdeg : ri.priority_score = none)
    (p : PriorityScorer.PriorityScore)
    (hp : rj.priority_score = some p)
    (hpos : 0 < p.overall) :
    j < i ∧
      ∀ (k : ℕ) (cl : List String),
        (JobManager.mkClusterResult keywords totalLen k cl (Except.error ())).priority_score
          = none := by
  constructor
  · have hki : JobManager.resultKey ri = 0 := by
      simp [JobManager.resultKey, hdeg]
    have hkj : JobManager.resultKey rj = p.overall := by
      simp [JobManager.resultKey, hp]
    rcases List.get?_eq_some.mp hi with ⟨hilen, higet⟩
    rcases List.get?_eq_some.mp hj with ⟨hjlen, hjget⟩
    by_contra hnot
    push_neg at hnot
    have hij : i ≠ j := by
      intro he
      subst he
      rw [higet] at hjget
      rw [hjget] at hdeg
      rw [hdeg] at hp
      cases hp
    have hlt : i < j := lt_of_le_of_ne hnot hij
    have hpw : (JobManager.executeJobResults keywords totalLen clusters
        outcomes).Pairwise
        (fun a b => JobManager.resultKey b ≤ JobManager.resultKey a) :=
      sortDesc_pairwise JobManager.resultKey
        (JobManager.buildResults keywords totalLen 0 clusters outcomes)
    have hrel := List.pairwise_iff_get.mp hpw ⟨i, hilen⟩ ⟨j, hjlen⟩ hlt
    rw [higet, hjget, hki, hkj] at hrel
    exact absurd hpos (not_lt.mpr hrel)
  · intro k cl; rfl

/-- The concrete priority score of a 1-text cluster in a 1-text sample
scored against the API-failure default analysis: used by the C9 witness. -/
theorem scoreCluster_api_default_eval :
    PriorityScorer.scoreCluster 1 1 (JobManager.jsNumOr 2 2) (JobManager.jsNumOr 2.5 2.5)
        [⟨"API调用失败", "无法获取竞品信息"⟩] =
      { demand_intensity := 5
        market_size := 5/2
        competition := 5
        overall := 43/10
        level := PriorityScorer.Level.High } := by
  have he : JobManager.jsNumOr 2 2 = 2 := by norm_num [JobManager.jsNumOr]
  have hg : JobManager.jsNumOr 2.5 2.5 = 2.5 := by norm_num [JobManager.jsNumOr]
  rw [he, hg]
  have hdem : PriorityScorer.calculateDemandIntensity 1 1 2 = 5 := by
    unfold PriorityScorer.calculateDemandIntensity
    norm_num [round1, jsRound, min_def]
  have hmar : PriorityScorer.calculateMarketSize 1 1 2.5 = 5/2 := by
    unfold PriorityScorer.calculateMarketSize
    norm_num [round1, jsRound]
  have hcomp : PriorityScorer.calculateCompetition
      [⟨"API调用失败", "无法获取竞品信息"⟩] = 5 := by
    have h1 : containsKw "API调用失败" "待调研" = false := rfl
    have h2 : containsKw "API调用失败" "解析失败" = false := rfl
    have h3 : containsKw "API调用失败" "API调用失败" = true := rfl
    unfold PriorityScorer.calculateCompetition
    norm_num [List.filter_cons, List.filter_nil, h1, h2, h3]
  unfold PriorityScorer.scoreCluster
  rw [hdem, hmar, hcomp, PriorityScorer.calculatePriority_def]
  norm_num [round1, jsRound]

/-- Witness for `degraded_results_ordered_last`: one successful cluster
(scored 4.3) and one degraded cluster; in the sorted results the degraded
one sits at index 1, after the positive one at index 0. -/
theorem degraded_results_ordered_last_witness :
    (0 : ℕ) < 1 ∧
      ∀ (k : ℕ) (cl : List String),
        (JobManager.mkClusterResult ["k"] 1 k cl (Except.error ())).priority_score = none := by
  have hr0 : (JobManager.mkClusterResult ["k"] 1 0 ["x"]
      (Except.ok (GLMService.apiFailureResult []))).priority_score =
        some { demand_intensity := 5, market_size := 5/2, competition := 5,
               overall := 43/10, level := PriorityScorer.Level.High } := by
    have hbase : (JobManager.mkClusterResult ["k"] 1 0 ["x"]
        (Except.ok (GLMService.apiFailureResult []))).priority_score =
          some (PriorityScorer.scoreCluster 1 1 (JobManager.jsNumOr 2 2)
            (JobManager.jsNumOr 2.5 2.5) [⟨"API调用失败", "无法获取竞品信息"⟩]) := rfl
    rw [hbase, scoreCluster_api_default_eval]
  have hkey0 : JobManager.resultKey (JobManager.mkClusterResult ["k"] 1 0 ["x"]
      (Except.ok (GLMService.apiFailureResult []))) = 43/10 := by
    simp [JobManager.resultKey, hr0]
  have hkey1 : JobManager.resultKey (JobManager.mkClusterResult ["k"] 1 1 ["y"]
      (Except.error ())) = 0 := rfl
  have hL : JobManager.executeJobResults ["k"] 1 [["x"], ["y"]]
      [Except.ok (GLMService.apiFailureResult []), Except.error ()] =
        [JobManager.mkClusterResult ["k"] 1 0 ["x"]
            (Except.ok (GLMService.apiFailureResult [])),
          JobManager.mkClusterResult ["k"] 1 1 ["y"] (Except.error ())] := by
    show insertDesc JobManager.resultKey
        (JobManager.mkClusterResult ["k"] 1 0 ["x"]
          (Except.ok (GLMService.apiFailureResult [])))
        [JobManager.mkClusterResult ["k"] 1 1 ["y"] (Except.error ())] = _
    rw [insertDesc, if_pos (by rw [hkey1, hkey0]; norm_num)]
  refine degraded_results_ordered_last ["k"] 1 [["x"], ["y"]]
    [Except.ok (GLMService.apiFailureResult []), Except.error ()] 1 0
    (JobManager.mkClusterResult ["k"] 1 1 ["y"] (Except.error ()))
    (JobManager.mkClusterResult ["k"] 1 0 ["x"]
      (Except.ok (GLMService.apiFailureResult [])))
    (by rw [hL]; rfl) (by rw [hL]; rfl) rfl
    { demand_intensity := 5, market_size := 5/2, competition := 5,
      overall := 43/10, level := PriorityScorer.Level.High }
    hr0 (by norm_num)

namespace JobManager

/-- The mutable `Job` fields other than `status` that `executeJob` and
`updateJobStatus` write. -/
inductive JobField
  | progress
  | error
  | crawlStats
  | rawData
  | clusteredData
  | dataQuality
  | results
deriving DecidableEq, Repr

/-- One mutation of the job table: a write to the running job's record, or
a deletion of a record (only `cleanupExpiredJobs` deletes). -/
inductive JobWrite
  | setStatus (s : JobStatus)
  | setField (f : JobField)
  | deleteJob
deriving DecidableEq, Repr

/-- One pipeline step: a contiguous block of synchronous mutations (one
`updateJobStatus` call or one run of adjacent field assignments).  JS is
single-threaded, so no reader can observe a state between the writes of
one block; suspension points (`await`) only occur between steps. -/
abbrev JobStep := List JobWrite

/-- An `updateJobStatus(jobId, 'processing', ...)` call: writes `status`
and `progress`. -/
def progressStep : JobStep :=
  [JobWrite.setStatus JobStatus.processing, JobWrite.setField JobField.progress]

/-- The terminal failure block (`updateJobStatus(jobId, 'failed', '任务失败',
message)` in the catch): status, progress and error. -/
def failStep : JobStep :=
  [JobWrite.setStatus JobStatus.failed, JobWrite.setField JobField.progress,
    JobWrite.setField JobField.error]

/-- The terminal completion block (step 6: `job.results = ...`,
`job.status = 'completed'`, `job.progress = '分析完成'`). -/
def completeStep : JobStep :=
  [JobWrite.setField JobField.results, JobWrite.setStatus JobStatus.completed,
    JobWrite.setField JobField.progress]

/-- What one keyword's fetch contributes: raw texts plus the video titles
and comment texts later used for clustering. -/
structure FetchData where
  rawTexts : List String
  videoTitles : List String
  commentTexts : List String

/-- The outcomes of all external calls one `executeJob` run observes:
availability check, per-keyword fetches (an `error` models a rejected
promise), the two clustering-service calls, and the per-cluster GLM
calls. -/
structure PipelineWorld where
  hasCheck : Bool
  available : Bool
  fetches : List (Except Unit FetchData)
  videoClusterOut : ClusteringService.ClusteringResult
  commentClusterOut : ClusteringService.ClusteringResult
  analyses : List (Except Unit GLMService.DeepAnalysisResult)

/-- The fetch loop (step 2): one progress write per keyword before the
awaited fetch; a rejected fetch aborts the loop (the exception propagates
to the catch). -/
def fetchLoop : List (Except Unit FetchData) → List JobStep × Bool
  | [] => ([], false)
  | Except.ok _ :: rest =>
      let r := fetchLoop rest
      (progressStep :: r.1, r.2)
  | Except.error _ :: _ => ([progressStep], true)

/-- The data accumulated by the fetch loop before any abort. -/
def fetchedData : List (Except Unit FetchData) → List FetchData
  | [] => []
  | Except.ok d :: rest => d :: fetchedData rest
  | Except.error _ :: _ => []

/-- The per-cluster analysis loop (step 4): the GLM call never rejects,
but the try/catch still guards the iteration — a successful iteration ends
with a progress write; the catch branch only appends to the local results
array and writes nothing to the job. -/
def analysisLoop :
    List (List String) → List (Except Unit GLMService.DeepAnalysisResult) → List JobStep
  | [], _ => []
  | _ :: cs, Except.ok _ :: os => progressStep :: analysisLoop cs os
  | _ :: cs, Except.error _ :: os => analysisLoop cs os
  | _ :: _, [] => []

/-- The cluster list of step 3: video texts and comment texts clustered
separately (each call only made on non-empty input), video clusters first. -/
def pipelineClusters (w : PipelineWorld) : List (List String) :=
  let datas := fetchedData w.fetches
  let videoTexts := ((datas.map FetchData.videoTitles).flatten).filter
    (fun t => decide (0 < t.length))
  let commentTexts := ((datas.map FetchData.commentTexts).flatten).filter
    (fun t => decide (0 < t.length))
  (if 0 < videoTexts.length then
      ClusteringService.clusterTexts w.videoClusterOut videoTexts 2
    else []) ++
  (if 0 < commentTexts.length then
      ClusteringService.clusterTexts w.commentClusterOut commentTexts 2
    else [])

/-- The writes of `executeJob`'s try body, in program order, with the flag
saying whether it aborted into the catch: availability check, fetch loop,
`crawlStats`/`rawData` assignments, the zero-text check, clustering
progress writes, the zero-cluster check, `clusteredData`, the analysis
loop, and `dataQuality`. -/
def bodySteps (w : PipelineWorld) : List JobStep × Bool :=
  let availSteps : List JobStep := if w.hasCheck then [progressStep] else []
  if w.hasCheck && !w.available then (availSteps, true)
  else
    let f := fetchLoop w.fetches
    if f.2 then (availSteps ++ f.1, true)
    else
      let datas := fetchedData w.fetches
      let allRawTexts := (datas.map FetchData.rawTexts).flatten
      let steps2 := availSteps ++ f.1 ++
        [[JobWrite.setField JobField.crawlStats], [JobWrite.setField JobField.rawData]]
      if allRawTexts.length = 0 then (steps2, true)
      else
        let videoTexts := ((datas.map FetchData.videoTitles).flatten).filter
          (fun t => decide (0 < t.length))
        let commentTexts := ((datas.map FetchData.commentTexts).flatten).filter
          (fun t => decide (0 < t.length))
        let clusterSteps := [progressStep] ++
          (if 0 < videoTexts.length then [progressStep] else []) ++
          (if 0 < commentTexts.length then [progressStep] else [])
        if (pipelineClusters w).length = 0 then (steps2 ++ clusterSteps, true)
        else
          (steps2 ++ clusterSteps ++ [[JobWrite.setField JobField.clusteredData]] ++
            [progressStep] ++ analysisLoop (pipelineClusters w) w.analyses ++
            [[JobWrite.setField JobField.dataQuality]], false)

/-- The full write trace of one `executeJob` run: the try body followed by
exactly one terminal block — the catch's failure block on abort, the
completion block otherwise. -/
def executeJobSteps (w : PipelineWorld) : List JobStep :=
  (bodySteps w).1 ++ [if (bodySteps w).2 then failStep else completeStep]

/-- Writes that assign a terminal status. -/
def isTerminalWrite : JobWrite → Bool
  | JobWrite.setStatus JobStatus.completed => true
  | JobWrite.setStatus JobStatus.failed => true
  | _ => false

/-- Every step of the try body is either an `updateJobStatus(processing)`
block or a single non-status field assignment. -/
def benignStep (s : JobStep) : Prop :=
  s = progressStep ∨ ∃ f, s = [JobWrite.setField f]

theorem benign_no_terminal {s : JobStep} (h : benignStep s) :
    s.countP isTerminalWrite = 0 ∧ JobWrite.deleteJob ∉ s := by
  rcases h with rfl | ⟨f, rfl⟩
  · decide
  · constructor
    · rfl
    · intro hmem
      rcases List.mem_singleton.mp hmem with h
      cases h

theorem fetchLoop_benign (fs : List (Except Unit FetchData)) :
    ∀ s ∈ (fetchLoop fs).1, benignStep s := by
  induction fs with
  | nil => intro s hs; simp [fetchLoop] at hs
  | cons f rest ih =>
      cases f with
      | ok d =>
          intro s hs
          rcases List.mem_cons.mp hs with rfl | hs'
          · exact Or.inl rfl
          · exact ih s hs'
      | error e =>
          intro s hs
          rcases List.mem_singleton.mp (by simpa [fetchLoop] using hs) with rfl
          exact Or.inl rfl

theorem analysisLoop_benign (cs : List (List String))
    (os : List (Except Unit GLMService.DeepAnalysisResult)) :
    ∀ s ∈ analysisLoop cs os, benignStep s := by
  induction cs generalizing os with
  | nil => intro s hs; simp [analysisLoop] at hs
  | cons c cs' ih =>
      cases os with
      | nil => intro s hs; simp [analysisLoop] at hs
      | cons o os' =>
          cases o with
          | ok a =>
              intro s hs
              rcases List.mem_cons.mp hs with rfl | hs'
              · exact Or.inl rfl
              · exact ih os' s hs'
          | error e => exact ih os'

/-- All steps of a step list are benign. -/
def benignAll (l : List JobStep) : Prop := ∀ s ∈ l, benignStep s

theorem benignAll_nil : benignAll [] := by intro s hs; simp at hs

theorem benignAll_cons {x : JobStep} {l : List JobStep}
    (hx : benignStep x) (hl : benignAll l) : benignAll (x :: l) := by
  intro s hs
  rcases List.mem_cons.mp hs with rfl | hs'
  · exact hx
  · exact hl s hs'

theorem benignAll_append {l1 l2 : List JobStep}
    (h1 : benignAll l1) (h2 : benignAll l2) : benignAll (l1 ++ l2) := by
  intro s hs
  rcases List.mem_append.mp hs with hs' | hs'
  · exact h1 s hs'
  · exact h2 s hs'

theorem benignAll_ite (c : Prop) [Decidable c] {l1 l2 : List JobStep}
    (h1 : benignAll l1) (h2 : benignAll l2) :
    benignAll (if c then l1 else l2) := by
  split
  · exact h1
  · exact h2

theorem benignStep_progress : benignStep progressStep := Or.inl rfl

theorem benignStep_field (f : JobField) :
    benignStep [JobWrite.setField f] := Or.inr ⟨f, rfl⟩

theorem bodySteps_benign (w : PipelineWorld) :
    benignAll (bodySteps w).1 := by
  have hfetch : benignAll (fetchLoop w.fetches).1 := fetchLoop_benign w.fetches
  have hanalysis : benignAll (analysisLoop (pipelineClusters w) w.analyses) :=
    analysisLoop_benign _ _
  unfold bodySteps
  dsimp only
  split
  · exact benignAll_ite _ (benignAll_cons benignStep_progress benignAll_nil) benignAll_nil
  · split
    · exact benignAll_append
        (benignAll_ite _ (benignAll_cons benignStep_progress benignAll_nil) benignAll_nil)
        hfetch
    · split
      · repeat' first
          | exact benignAll_nil
          | exact hfetch
          | exact hanalysis
          | exact benignStep_progress
          | exact benignStep_field _
          | apply benignAll_cons
          | apply benignAll_append
          | apply benignAll_ite
      · split
        · repeat' first
            | exact benignAll_nil
            | exact hfetch
            | exact hanalysis
            | exact benignStep_progress
            | exact benignStep_field _
            | apply benignAll_cons
            | apply benignAll_append
            | apply benignAll_ite
        · repeat' first
            | exact benignAll_nil
            | exact hfetch
            | exact hanalysis
            | exact benignStep_progress
            | exact benignStep_field _
            | apply benignAll_cons
            | apply benignAll_append
            | apply benignAll_ite

end JobManager

/-- C8: every `executeJob` run writes a terminal status exactly once, in
its very last step (the completion block or the catch's failure block) —
every earlier step only writes `processing` status, progress, or data
fields — and no pipeline step ever deletes a job record (only
`cleanupExpiredJobs` does). -/
theorem executeJob_terminal_once (w : JobManager.PipelineWorld) :
    ∃ body fin, JobManager.executeJobSteps w = body ++ [fin] ∧
      (∀ s ∈ body, s.countP JobManager.isTerminalWrite = 0) ∧
      fin.countP JobManager.isTerminalWrite = 1 ∧
      (∀ s ∈ JobManager.executeJobSteps w, JobManager.JobWrite.deleteJob ∉ s) := by
  refine ⟨(JobManager.bodySteps w).1,
    if (JobManager.bodySteps w).2 then JobManager.failStep else JobManager.completeStep,
    rfl, ?_, ?_, ?_⟩
  · intro s hs
    exact (JobManager.benign_no_terminal (JobManager.bodySteps_benign w s hs)).1
  · split <;> decide
  · intro s hs
    rcases List.mem_append.mp hs with hs' | hs'
    · exact (JobManager.benign_no_terminal (JobManager.bodySteps_benign w s hs')).2
    · rcases List.mem_singleton.mp hs' with rfl
      split <;> decide
